import Mathlib

/-!
Verification of the ctr-agent repository (ctr-agent.py and meta.py) against its
natural-language specification.  The Python source is shallowly embedded:
pure functions become Lean functions, external effects (git, docker, tailscale,
dig, the system clock, random draws) become explicit parameters or small
command semantics, and Python builtins used by the code (str.strip, str.split,
dict/list merging, slicing) are transcribed as executable Lean functions.
Machine integers do not occur; timestamps are modelled as naturals.
-/

namespace CtrAgent

/-! ### Python builtin transcriptions -/

/-- Characters treated as whitespace by Python's str.strip (the ASCII subset
that can occur in the subprocess outputs handled here). -/
def pySpace (c : Char) : Bool :=
  c = ' ' || c = '\t' || c = '\n' || c = '\r' || c = '\x0b' || c = '\x0c'

/-- Strip leading and trailing whitespace from a character list. -/
def stripCharsList (l : List Char) : List Char :=
  ((l.dropWhile pySpace).reverse.dropWhile pySpace).reverse

/-- Python str.strip(): remove leading and trailing whitespace. -/
def pyStrip (s : String) : String :=
  String.mk (stripCharsList s.toList)

/-- Split a character list on the newline character; mirrors Python
str.split, so the empty input yields one empty field. -/
def splitNlChars : List Char → List (List Char)
  | [] => [[]]
  | c :: rest =>
    match splitNlChars rest with
    | [] => [[]]
    | h :: t => if c = '\n' then [] :: h :: t else (c :: h) :: t

/-- Python s.split of a string on newlines: always at least one field, and
the empty string yields a single empty field. -/
def pySplitNl (s : String) : List String :=
  (splitNlChars s.toList).map String.mk

/-- Python s[:n] slicing: take the first n characters. -/
def pyTake (s : String) (n : Nat) : String :=
  String.mk (s.toList.take n)

/-- Whether the character list `needle` occurs contiguously inside `hay`. -/
def hasSubSeq (needle : List Char) : List Char → Bool
  | [] => needle.isEmpty
  | c :: rest => needle.isPrefixOf (c :: rest) || hasSubSeq needle rest

/-- Whether string `n` occurs as a contiguous substring of `s`. -/
def strContains (s n : String) : Bool :=
  hasSubSeq n.toList s.toList

/-! ### JSON configuration documents and merge_configs (ctr-agent.py:62-85)

Configuration documents are the values produced by json.load: null, booleans,
numbers, strings, arrays and objects.  Objects are insertion-ordered
association lists, exactly like Python dicts; numeric payloads play no role in
merging and are modelled as integers. -/

inductive JValue where
  | null : JValue
  | bool (b : Bool) : JValue
  | num (n : Int) : JValue
  | str (s : String) : JValue
  | arr (xs : List JValue) : JValue
  | obj (kvs : List (String × JValue)) : JValue

/-- Generic first-match lookup in an insertion-ordered association list;
both Python dicts modelled here (configuration objects and the container
state table) read through it. -/
def alGet {β : Type} (d : List (String × β)) (k : String) : Option β :=
  (d.find? (fun p => p.1 = k)).map Prod.snd

/-- Look up a key in a Python-dict association list (first match). -/
def dictGet (d : List (String × JValue)) (k : String) : Option JValue :=
  alGet d k

/-- Python `d[k] = v` on an insertion-ordered dict: update in place when the
key is present, otherwise append at the end. -/
def dictSet (d : List (String × JValue)) (k : String) (v : JValue) :
    List (String × JValue) :=
  if d.any (fun p => p.1 = k) then
    d.map (fun p => if p.1 = k then (p.1, v) else p)
  else
    d ++ [(k, v)]

/-- Python dict union as written in the source, `{**a, **b}`: entries of `b`
update or extend `a` one key at a time, in order. -/
def dictUpdate (a b : List (String × JValue)) : List (String × JValue) :=
  b.foldl (fun d kv => dictSet d kv.1 kv.2) a

/-- Body of the merge loop of merge_configs (ctr-agent.py:71-83), processing
one overlay entry: a key absent from the result is added; two dicts are
merged with a one-level dict union; two lists are concatenated base-first;
anything else is replaced by the overlay value. -/
def mergeStep (result : List (String × JValue)) (kv : String × JValue) :
    List (String × JValue) :=
  match dictGet result kv.1, kv.2 with
  | none, _ => result ++ [kv]
  | some (JValue.obj bo), JValue.obj oo =>
      dictSet result kv.1 (JValue.obj (dictUpdate bo oo))
  | some (JValue.arr ba), JValue.arr oa =>
      dictSet result kv.1 (JValue.arr (ba ++ oa))
  | some _, _ => dictSet result kv.1 kv.2

/-- merge_configs from ctr-agent.py lines 62-85: `result = base.copy()`, then
the merge loop over the overlay entries in order. -/
def merge_configs (base overlay : List (String × JValue)) :
    List (String × JValue) :=
  overlay.foldl mergeStep base

mutual

/-- Modelled from the spec's words for comparison with `merge_configs` (the
refinement side of claim C3): a deep merge in which object-valued keys merge
recursively, sequence-valued keys concatenate and scalar keys are replaced by
the overlay. -/
def specDeepMerge : JValue → JValue → JValue
  | JValue.obj bo, JValue.obj oo => JValue.obj (specDeepMergeObj bo oo)
  | JValue.arr ba, JValue.arr oa => JValue.arr (ba ++ oa)
  | _, ov => ov

/-- Object part of `specDeepMerge`: fold the overlay entries into the base,
merging recursively when the key is already present. -/
def specDeepMergeObj (bo : List (String × JValue)) :
    List (String × JValue) → List (String × JValue)
  | [] => bo
  | kv :: rest =>
      specDeepMergeObj
        (dictSet bo kv.1
          (match dictGet bo kv.1 with
           | some bv => specDeepMerge bv kv.2
           | none => kv.2))
        rest

end

/-- Pointwise description of what merge_configs produces for one key (used to
state the per-key characterization theorem): overlay-absent keys keep the base
value, base-absent keys take the overlay value, two objects take the one-level
dict union, two arrays concatenate base-first, anything else is replaced. -/
def mergeValueAt : Option JValue → Option JValue → Option JValue
  | bv, none => bv
  | none, some ov => some ov
  | some (JValue.obj bo), some (JValue.obj oo) =>
      some (JValue.obj (dictUpdate bo oo))
  | some (JValue.arr ba), some (JValue.arr oa) =>
      some (JValue.arr (ba ++ oa))
  | some _, some ov => some ov

/-- Concrete base document with a nested object: one agent "x" carrying a
command entry. -/
def cexBase : List (String × JValue) :=
  [("agents", JValue.obj [("x", JValue.obj [("cmd", JValue.str "a")])])]

/-- Concrete overlay document whose agent "x" carries a different entry. -/
def cexOverlay : List (String × JValue) :=
  [("agents", JValue.obj [("x", JValue.obj [("extra", JValue.str "b")])])]

/-- Key list of the object stored under "agents" then "x", used to observe
the difference between the code's one-level merge and a recursive merge. -/
def cexProj (m : List (String × JValue)) : List String :=
  match dictGet m "agents" with
  | some (JValue.obj ags) =>
    (match dictGet ags "x" with
     | some (JValue.obj inner) => inner.map Prod.fst
     | _ => [])
  | _ => []

/-! ### Session reconciliation at exit (ctr-agent.py:276-313, inside_mode)

The tail of inside_mode runs git commands against the worktree and the shared
repository.  The git external interface is modelled as a small command
language over a world state: `git status --porcelain` reports a stored exit
code and output (nonblank output means dirty), `git add -A` stages exactly the
dirty content, `git commit` advances the branch tip to a fresh commit id when
something is staged, `git rev-parse <branch>` reports the branch tip (failing
when it cannot be resolved), and the two cleanup commands remove the worktree
and branch best-effort. -/

/-- The git commands issued by the reconciliation tail of inside_mode. -/
inductive GCmd where
  | status : GCmd
  | addAll : GCmd
  | commit (msg : String) : GCmd
  | revParse (ref : String) : GCmd
  | worktreeRemove (path : String) : GCmd
  | branchDelete (name : String) : GCmd
deriving DecidableEq

/-- Result of one subprocess invocation: exit code and captured stdout. -/
structure CmdResult where
  rc : Nat
  out : String

/-- State of the git external interface as seen by the reconciliation code.
`statusRc`/`statusOut` are what `git status --porcelain` reports; `tip` is the
slug branch's tip (`none` when `git rev-parse` cannot resolve it);
`freshCommit` is the id a newly created commit would get; the two booleans
track whether the worktree and branch still exist. -/
structure GitWorld where
  statusRc : Nat
  statusOut : String
  staged : Bool
  tip : Option String
  freshCommit : String
  worktreePresent : Bool
  branchPresent : Bool

/-- Semantics of one git command against the modelled world.  `rev-parse`
output is modelled as the bare tip id: the trailing newline a subprocess
prints and the `.strip()` the source applies cancel at this boundary. -/
def runGit (w : GitWorld) : GCmd → GitWorld × CmdResult
  | GCmd.status => (w, ⟨w.statusRc, w.statusOut⟩)
  | GCmd.addAll => ({ w with staged := pyStrip w.statusOut != "" }, ⟨0, ""⟩)
  | GCmd.commit _ =>
      if w.staged then
        ({ w with tip := some w.freshCommit, statusOut := "", staged := false },
         ⟨0, ""⟩)
      else (w, ⟨1, ""⟩)
  | GCmd.revParse _ =>
      (w, match w.tip with
          | some t => ⟨0, t⟩
          | none => ⟨128, ""⟩)
  | GCmd.worktreeRemove _ => ({ w with worktreePresent := false }, ⟨0, ""⟩)
  | GCmd.branchDelete _ => ({ w with branchPresent := false }, ⟨0, ""⟩)

/-- The auto-commit message built at ctr-agent.py:286. -/
def autoCommitMsg (agent slug : String) : String :=
  "Auto-commit by ctragent on exit\n\nAgent: " ++ agent ++ "\nBranch: " ++ slug

/-- Reconciliation tail of inside_mode (ctr-agent.py:276-313), returning the
final world and the trace of git commands issued.  If `git status` exits 0
with nonblank output, everything is staged and one commit is created; then the
branch tip is resolved and compared to the original committish, and the
worktree and branch are removed exactly when rev-parse succeeded and reported
the committish. -/
def inside_mode_reconcile (agent slug committish wtPath : String)
    (w0 : GitWorld) : GitWorld × List GCmd :=
  let s1 := runGit w0 GCmd.status
  let afterCommit :=
    if s1.2.rc = 0 ∧ pyStrip s1.2.out ≠ "" then
      let s2 := runGit s1.1 GCmd.addAll
      let s3 := runGit s2.1 (GCmd.commit (autoCommitMsg agent slug))
      (s3.1, [GCmd.status, GCmd.addAll, GCmd.commit (autoCommitMsg agent slug)])
    else (s1.1, [GCmd.status])
  let s4 := runGit afterCommit.1 (GCmd.revParse slug)
  if s4.2.rc = 0 ∧ s4.2.out = committish then
    let s5 := runGit s4.1 (GCmd.worktreeRemove wtPath)
    let s6 := runGit s5.1 (GCmd.branchDelete slug)
    (s6.1,
     afterCommit.2 ++
       [GCmd.revParse slug, GCmd.worktreeRemove wtPath, GCmd.branchDelete slug])
  else (s4.1, afterCommit.2 ++ [GCmd.revParse slug])

/-- The branch tip that the rev-parse check of the reconciliation step sees:
the original tip unless the dirty path ran, in which case the auto-commit
moved it to the fresh commit id. -/
def tipAtCheck (w : GitWorld) : Option String :=
  if w.statusRc = 0 ∧ pyStrip w.statusOut ≠ "" then some w.freshCommit
  else w.tip

/-! ### Slug allocation (ctr-agent.py:316-337, generate_random_slug)

The random draws and the docker queries are external: the draw stream gives
the (adjective, animal) pair random.choice would produce at each attempt, and
the query gives `docker ps -a --filter name=<slug>` exit code and stdout.  An
attempt succeeds when the query exits 0 and the candidate slug is not among
the stdout lines (Python's split of a stripped empty stdout yields one empty
field, so an empty registry never collides with a nonempty slug). -/

/-- One pass of the retry loop of generate_random_slug, with `fuel` attempts
remaining and `i` attempts already consumed. -/
def slugLoop (draw : Nat → String × String) (query : String → Nat × String) :
    Nat → Nat → Except String String
  | _, 0 =>
    Except.error
      ("Could not generate unique container name after " ++ toString 100 ++
        " attempts")
  | i, fuel + 1 =>
    let cand := (draw i).1 ++ "-" ++ (draw i).2
    let res := query cand
    if res.1 = 0 ∧ cand ∉ pySplitNl (pyStrip res.2) then Except.ok cand
    else slugLoop draw query (i + 1) fuel

/-- generate_random_slug (ctr-agent.py:316-337): up to 100 attempts, each
drawing an adjective-animal pair, querying the container registry, and
accepting the candidate when no exact-name collision is reported; exhausting
all attempts raises (here: returns) the allocation-exhausted error. -/
def generate_random_slug (draw : Nat → String × String)
    (query : String → Nat × String) : Except String String :=
  slugLoop draw query 0 100

/-- Registry response of `docker ps -a --filter name=<slug>`: exit code 0 and
one line per registered container whose name contains the slug. -/
def queryOfRegistry (registry : List String) (slug : String) : Nat × String :=
  (0, String.intercalate "\n" (registry.filter (fun n => strContains n slug)))

/-! ### Dashboard state tracking (meta.py:20-158)

The poll cycle's externals — the md5 fingerprint, the tmux pane capture, the
port lookup and the clock — are parameters: `fp` is the fingerprinting
function (md5 hexdigest in the source, abstracted as a string function),
`capture id` the captured pane text, `port id` the mapped host port, and
`now` the current time in whole time units.  The tracked table is an
insertion-ordered association list from container id to state, exactly like
the Python dict. -/

/-- ContainerState (meta.py:20-28). -/
structure ContainerState where
  container_id : String
  name : String
  pane_content : String
  content_hash : String
  last_change_time : Nat
  yatty_port : Option Nat
deriving DecidableEq

/-- The tracked container-state table: an insertion-ordered dict keyed by
container id. -/
abbrev StateTable := List (String × ContainerState)

/-- Look up a tracked container id (first match, as in a Python dict). -/
def lookupState (t : StateTable) (id : String) : Option ContainerState :=
  alGet t id

/-- Per-container body of the update loop (meta.py:135-143): name and port
are refreshed unconditionally; when the fingerprint of the captured snapshot
differs from the stored one, content, fingerprint and last-change time are
replaced, otherwise they are left untouched. -/
def refreshState (fp capture : String → String) (port : String → Option Nat)
    (now : Nat) (id name : String) (s : ContainerState) : ContainerState :=
  let content := capture id
  let h := fp content
  let s1 := { s with name := name, yatty_port := port id }
  if s1.content_hash ≠ h then
    { s1 with pane_content := content, content_hash := h,
              last_change_time := now }
  else s1

/-- Freshly observed container (meta.py:145-153). -/
def freshState (fp capture : String → String) (port : String → Option Nat)
    (now : Nat) (id name : String) : ContainerState :=
  { container_id := id, name := name, pane_content := capture id,
    content_hash := fp (capture id), last_change_time := now,
    yatty_port := port id }

/-- One iteration of the `for container in containers` loop: update the
tracked entry in place, or insert a new one at the end. -/
def upsertState (fp capture : String → String) (port : String → Option Nat)
    (now : Nat) (t : StateTable) (c : String × String) : StateTable :=
  if t.any (fun p => p.1 = c.1) then
    t.map (fun p =>
      if p.1 = c.1 then (p.1, refreshState fp capture port now c.1 c.2 p.2)
      else p)
  else
    t ++ [(c.1, freshState fp capture port now c.1 c.2)]

/-- update_container_states (meta.py:117-158): upsert every candidate
container (given as an (id, name) list), then drop every tracked id absent
from the candidate list. -/
def update_container_states (fp capture : String → String)
    (port : String → Option Nat) (now : Nat)
    (containers : List (String × String)) (t : StateTable) : StateTable :=
  (containers.foldl (upsertState fp capture port now) t).filter
    (fun p => containers.any (fun c => c.1 = p.1))

/-- Recency order used by the dashboard (meta.py:176-181 and 364-368):
states sorted by last-change time, most recent first; Python's sorted is
stable, as is mergeSort, so ties keep table order. -/
def sortedStates (t : StateTable) : List ContainerState :=
  (t.map Prod.snd).mergeSort
    (fun a b => Nat.ble b.last_change_time a.last_change_time)

/-- One element of the JSON projection served at /api/containers
(meta.py:356-369).  The spec calls the port field exposedPort; the source's
JSON key is yattyPort. -/
structure ApiEntry where
  id : String
  name : String
  lastChange : Nat
  yattyPort : Option Nat
  content : String
deriving DecidableEq

/-- The /api/containers payload: the recency-sorted states, each projected to
id, name, last change, port and content truncated to 500 characters. -/
def apiData (t : StateTable) : List ApiEntry :=
  (sortedStates t).map fun s =>
    { id := s.container_id, name := s.name, lastChange := s.last_change_time,
      yattyPort := s.yatty_port, content := pyTake s.pane_content 500 }

/-- html.escape of one character (quote=True, the default used at
meta.py:196 and 203): ampersand, angle brackets and both quote characters
become entities. -/
def escChar (c : Char) : String :=
  if c = '&' then "&amp;"
  else if c = '<' then "&lt;"
  else if c = '>' then "&gt;"
  else if c = '"' then "&quot;"
  else if c = '\'' then "&#x27;"
  else String.mk [c]

/-- Python html.escape over a whole string. -/
def htmlEscape (s : String) : String :=
  String.join (s.toList.map escChar)

/-- format_time_ago (meta.py:161-171): bucket the age of a timestamp into
seconds, minutes, hours or days.  Timestamps are whole time units, so the
float truncation of the source is natural division. -/
def format_time_ago (now ts : Nat) : String :=
  let diff := now - ts
  if diff < 60 then toString diff ++ "s ago"
  else if diff < 3600 then toString (diff / 60) ++ "m ago"
  else if diff < 86400 then toString (diff / 3600) ++ "h ago"
  else toString (diff / 86400) ++ "d ago"

/-- The per-tile terminal URL (meta.py:185-193): Tailscale hostname when a
naming suffix is known, else the mapped localhost port, else a dead link. -/
def yattyUrl (magicSuffix : Option String) (s : ContainerState) : String :=
  match magicSuffix with
  | some m => "http://" ++ s.name ++ "." ++ m ++ ":8001/"
  | none =>
    match s.yatty_port with
    | some p => "http://localhost:" ++ toString p ++ "/"
    | none => "#"

/-- One dashboard tile (meta.py:199-207), with name and captured content
HTML-escaped and the age rendered by format_time_ago. -/
def tileHtml (magicSuffix : Option String) (now : Nat) (s : ContainerState) :
    String :=
  "\n        <a href=\"" ++ yattyUrl magicSuffix s ++
  "\" class=\"tile\" target=\"_blank\">\n            <div class=\"tile-header\">\n                <span class=\"tile-name\">" ++
  htmlEscape s.name ++
  "</span>\n                <span class=\"tile-time\">" ++
  format_time_ago now s.last_change_time ++
  "</span>\n            </div>\n            <pre class=\"tile-content\">" ++
  htmlEscape s.pane_content ++
  "</pre>\n        </a>\n        "

/-- Placeholder shown when no tiles exist (meta.py:209-210). -/
def noContainersDiv : String :=
  "<div class=\"no-containers\">No ctr-agent containers running</div>"

/-- Dashboard page text before the tiles (meta.py:212-321). -/
def dashPagePre : String :=
  "<!DOCTYPE html>\n" ++
  "<html>\n" ++
  "<head>\n" ++
  "    <meta charset=\"utf-8\">\n" ++
  "    <meta name=\"viewport\" content=\"width=device-width, initial-scale=1\">\n" ++
  "    <title>ctr-agent Dashboard</title>\n" ++
  "    <meta http-equiv=\"refresh\" content=\"20\">\n" ++
  "    <style>\n" ++
  "        * \x7b\n" ++
  "            box-sizing: border-box;\n" ++
  "            margin: 0;\n" ++
  "            padding: 0;\n" ++
  "        \x7d\n" ++
  "\n" ++
  "        body \x7b\n" ++
  "            font-family: -apple-system, BlinkMacSystemFont, \"Segoe UI\", Roboto, \"Helvetica Neue\", Arial, sans-serif;\n" ++
  "            background: #1a1a2e;\n" ++
  "            color: #eee;\n" ++
  "            min-height: 100vh;\n" ++
  "            padding: 10px;\n" ++
  "        \x7d\n" ++
  "\n" ++
  "        h1 \x7b\n" ++
  "            text-align: center;\n" ++
  "            margin-bottom: 15px;\n" ++
  "            font-size: 1.5em;\n" ++
  "            color: #7b68ee;\n" ++
  "        \x7d\n" ++
  "\n" ++
  "        .container \x7b\n" ++
  "            display: grid;\n" ++
  "            grid-template-columns: repeat(auto-fit, minmax(350px, 1fr));\n" ++
  "            gap: 10px;\n" ++
  "            width: 100%;\n" ++
  "        \x7d\n" ++
  "\n" ++
  "        .tile \x7b\n" ++
  "            background: #16213e;\n" ++
  "            border: 1px solid #0f3460;\n" ++
  "            border-radius: 8px;\n" ++
  "            padding: 10px;\n" ++
  "            text-decoration: none;\n" ++
  "            color: inherit;\n" ++
  "            display: flex;\n" ++
  "            flex-direction: column;\n" ++
  "            min-height: 200px;\n" ++
  "            max-height: 400px;\n" ++
  "            overflow: hidden;\n" ++
  "            transition: transform 0.2s, box-shadow 0.2s;\n" ++
  "        \x7d\n" ++
  "\n" ++
  "        .tile:hover \x7b\n" ++
  "            transform: translateY(-2px);\n" ++
  "            box-shadow: 0 4px 20px rgba(123, 104, 238, 0.3);\n" ++
  "            border-color: #7b68ee;\n" ++
  "        \x7d\n" ++
  "\n" ++
  "        .tile-header \x7b\n" ++
  "            display: flex;\n" ++
  "            justify-content: space-between;\n" ++
  "            align-items: center;\n" ++
  "            margin-bottom: 8px;\n" ++
  "            padding-bottom: 8px;\n" ++
  "            border-bottom: 1px solid #0f3460;\n" ++
  "        \x7d\n" ++
  "\n" ++
  "        .tile-name \x7b\n" ++
  "            font-weight: bold;\n" ++
  "            font-size: 1.1em;\n" ++
  "            color: #7b68ee;\n" ++
  "        \x7d\n" ++
  "\n" ++
  "        .tile-time \x7b\n" ++
  "            font-size: 0.8em;\n" ++
  "            color: #888;\n" ++
  "        \x7d\n" ++
  "\n" ++
  "        .tile-content \x7b\n" ++
  "            flex: 1;\n" ++
  "            overflow: hidden;\n" ++
  "            font-family: \"SF Mono\", \"Monaco\", \"Inconsolata\", \"Fira Mono\", \"Droid Sans Mono\", \"Source Code Pro\", monospace;\n" ++
  "            font-size: 10px;\n" ++
  "            line-height: 1.3;\n" ++
  "            white-space: pre;\n" ++
  "            background: #0a0a15;\n" ++
  "            padding: 8px;\n" ++
  "            border-radius: 4px;\n" ++
  "            color: #aaa;\n" ++
  "        \x7d\n" ++
  "\n" ++
  "        .no-containers \x7b\n" ++
  "            text-align: center;\n" ++
  "            padding: 50px;\n" ++
  "            color: #666;\n" ++
  "            font-size: 1.2em;\n" ++
  "        \x7d\n" ++
  "\n" ++
  "        .refresh-indicator \x7b\n" ++
  "            position: fixed;\n" ++
  "            bottom: 10px;\n" ++
  "            right: 10px;\n" ++
  "            font-size: 0.8em;\n" ++
  "            color: #666;\n" ++
  "        \x7d\n" ++
  "    </style>\n" ++
  "</head>\n" ++
  "<body>\n" ++
  "    <h1>ctr-agent Dashboard</h1>\n" ++
  "    <div class=\"container\">\n" ++
  "        "

/-- Dashboard page text after the tiles (meta.py:321-325). -/
def dashPagePost : String :=
  "\n" ++
  "    </div>\n" ++
  "    <div class=\"refresh-indicator\">Auto-refresh: 20s</div>\n" ++
  "</body>\n" ++
  "</html>"


/-- generate_html (meta.py:174-325): the recency-sorted tiles spliced into
the page template; an empty tile list is replaced by the placeholder. -/
def generate_html (magicSuffix : Option String) (now : Nat) (t : StateTable) :
    String :=
  let tiles := String.join ((sortedStates t).map (tileHtml magicSuffix now))
  let tiles := if tiles = "" then noContainersDiv else tiles
  dashPagePre ++ tiles ++ dashPagePost

/-- Body of a dashboard HTTP response: the HTML page, the JSON payload
(modelled at the data level; json.dumps serialization is external), or none
(the 404 answer sends no body). -/
inductive DashBody where
  | page (content : String) : DashBody
  | json (entries : List ApiEntry) : DashBody
  | empty : DashBody
deriving DecidableEq

/-- A dashboard HTTP response: status, headers, body. -/
structure DashResponse where
  status : Nat
  headers : List (String × String)
  body : DashBody

/-- DashboardHandler.do_GET (meta.py:337-378).  The docker listing, pane
captures, port lookups and clock are the poll-cycle externals; the handler
refreshes the tracked table for the two served paths and answers 404
elsewhere.  Returns the response together with the table it leaves behind. -/
def DashboardHandler_do_GET (fp capture : String → String)
    (port : String → Option Nat) (now : Nat) (magicSuffix : Option String)
    (containers : List (String × String)) (t : StateTable) (path : String) :
    DashResponse × StateTable :=
  if path = "/" ∨ path = "/index.html" then
    let t' := update_container_states fp capture port now containers t
    ({ status := 200,
       headers := [("Content-type", "text/html; charset=utf-8"),
                   ("Cache-Control", "no-cache, no-store, must-revalidate")],
       body := DashBody.page (generate_html magicSuffix now t') }, t')
  else if path = "/api/containers" then
    let t' := update_container_states fp capture port now containers t
    ({ status := 200,
       headers := [("Content-type", "application/json"),
                   ("Cache-Control", "no-cache")],
       body := DashBody.json (apiData t') }, t')
  else ({ status := 404, headers := [], body := DashBody.empty }, t)

/-- Whether a git command in a reconciliation trace is a commit creation. -/
def isCommitCmd : GCmd → Bool
  | GCmd.commit _ => true
  | _ => false

/-- The candidate slug of attempt i: the drawn adjective and animal joined by
a hyphen (ctr-agent.py:322). -/
def slugOf (draw : Nat → String × String) (i : Nat) : String :=
  (draw i).1 ++ "-" ++ (draw i).2

/-- An attempt's acceptance test (ctr-agent.py:333): the registry query
exited 0 and the candidate is not among the reported name lines. -/
def slugAvailable (query : String → Nat × String) (cand : String) : Prop :=
  (query cand).1 = 0 ∧ cand ∉ pySplitNl (pyStrip (query cand).2)

/-- The error generate_random_slug raises when the retry budget is spent. -/
def allocationExhaustedMsg : String :=
  "Could not generate unique container name after " ++ toString 100 ++
    " attempts"

/-- Fingerprint coherence of the tracked table: every stored fingerprint is
the fingerprint of the stored snapshot text.  Holds of the empty initial
table and is preserved by every poll cycle. -/
def TableWF (fp : String → String) (t : StateTable) : Prop :=
  ∀ p ∈ t, p.2.content_hash = fp p.2.pane_content

/-- Key coherence of the tracked table: every entry's stored container id is
its dict key.  Holds of the empty initial table and is preserved by every
poll cycle. -/
def WellKeyed (t : StateTable) : Prop :=
  ∀ p ∈ t, p.2.container_id = p.1

/-- The auto-refresh meta tag of the dashboard page. -/
def refreshMetaTag : String :=
  "<meta http-equiv=\"refresh\" content=\"20\">"

/-- A response of the single-use redirect handler. -/
structure HttpResponse where
  status : Nat
  headers : List (String × String)
  body : String

/-- RedirectHandler.do_GET (ctr-agent.py:499-584).  The tailscale suffix
lookup is external: `suffix` is the determined naming suffix (none when it
could not be determined at all) and `tsErr` the diagnostic recorded while
trying.  The resolver poll loop runs for a 20-second window at a 0.5-second
interval; time is modelled in half-second ticks advancing by one sleep per
failed attempt (the dig call itself is instantaneous in the model), so
attempt i happens at elapsed time i/2 and the `elapsed < 20` guard admits
attempts 0..39.  `digOk i` tells whether the dig query of attempt i returns
an answer. -/
def RedirectHandler_do_GET (slug : String) (suffix : Option String)
    (tsErr : Option String) (digOk : Nat → Bool) : HttpResponse :=
  match suffix with
  | none =>
    { status := 500, headers := [("Content-type", "text/html")],
      body := "<html><body><h1>Error</h1><p>" ++
        tsErr.getD "Could not determine Tailscale MagicDNSSuffix" ++
        "</p></body></html>" }
  | some sfx =>
    let full := slug ++ "." ++ sfx
    let target := "http://" ++ full ++ ":8001/"
    match (List.range (20 * 2)).find? digOk with
    | some _ => { status := 302, headers := [("Location", target)], body := "" }
    | none =>
      { status := 504, headers := [("Content-type", "text/html")],
        body := "<html><body><h1>Timeout</h1><p>Could not resolve " ++ full ++
          " after " ++ toString 20 ++ " seconds</p></body></html>" }

/-! ### Association-list lemmas -/

theorem alGet_cons {β : Type} (a : String × β) (d : List (String × β))
    (k : String) : alGet (a :: d) k = if a.1 = k then some a.2 else alGet d k := by
  by_cases h : a.1 = k <;> simp [alGet, List.find?_cons, h]

theorem alGet_isSome_any {β : Type} (d : List (String × β)) (k : String) :
    (alGet d k).isSome = d.any (fun p => p.1 = k) := by
  induction d with
  | nil => rfl
  | cons a d ih =>
    by_cases h : a.1 = k <;> simp [alGet_cons, h, ih]

theorem alGet_eq_none_of_not_mem {β : Type} {d : List (String × β)}
    {k : String} (h : k ∉ d.map Prod.fst) : alGet d k = none := by
  induction d with
  | nil => rfl
  | cons a d ih =>
    simp only [List.map_cons, List.mem_cons] at h
    push_neg at h
    rw [alGet_cons, if_neg (fun he => h.1 he.symm)]
    exact ih h.2

theorem alGet_mem_of_eq_some {β : Type} {d : List (String × β)} {k : String}
    {v : β} (h : alGet d k = some v) : (k, v) ∈ d := by
  induction d with
  | nil => simp [alGet] at h
  | cons a d ih =>
    rw [alGet_cons] at h
    by_cases ha : a.1 = k
    · rw [if_pos ha] at h
      obtain ⟨a1, a2⟩ := a
      obtain rfl : a2 = v := by simpa using h
      simp only [List.mem_cons]
      left
      simp at ha
      rw [ha]
    · rw [if_neg ha] at h
      exact List.mem_cons_of_mem _ (ih h)

theorem alGet_mapAt {β : Type} (d : List (String × β)) (k : String)
    (g : β → β) (k' : String) :
    alGet (d.map fun p => if p.1 = k then (p.1, g p.2) else p) k'
      = if k' = k then (alGet d k).map g else alGet d k' := by
  induction d with
  | nil => by_cases h : k' = k <;> simp [alGet, h]
  | cons a d ih =>
    by_cases hak : a.1 = k
    · by_cases hk : k' = k
      · subst hk
        simp [alGet_cons, hak, ih]
      · have hak' : a.1 ≠ k' := fun he => hk (he.symm.trans hak)
        have hk2 : ¬ k = k' := fun he => hk he.symm
        simp [alGet_cons, hak, hak', ih, hk, hk2]
    · by_cases hak' : a.1 = k'
      · have hk : k' ≠ k := fun he => hak (hak'.trans he)
        simp [alGet_cons, hak, hak', ih, hk]
      · simp [alGet_cons, hak, hak', ih]

theorem alGet_append_single {β : Type} (d : List (String × β)) (k : String)
    (v : β) (k' : String) (h : alGet d k = none) :
    alGet (d ++ [(k, v)]) k' = if k' = k then some v else alGet d k' := by
  induction d with
  | nil =>
    by_cases hk : k' = k
    · simp [alGet, hk]
    · have hk2 : ¬ k = k' := fun he => hk he.symm
      simp [alGet, hk, hk2]
  | cons a d ih =>
    rw [alGet_cons] at h
    by_cases ha : a.1 = k
    · rw [if_pos ha] at h
      exact absurd h (by simp)
    · rw [if_neg ha] at h
      by_cases hak' : a.1 = k'
      · have hk : k' ≠ k := fun he => ha (hak'.trans he)
        simp [List.cons_append, alGet_cons, hak', hk]
      · simp [List.cons_append, alGet_cons, hak', ih h]

/-! ### merge_configs lemmas (claim C3) -/

theorem dictGet_alGet (d : List (String × JValue)) (k : String) :
    dictGet d k = alGet d k := rfl

theorem dictGet_dictSet (d : List (String × JValue)) (k : String) (v : JValue)
    (k' : String) :
    dictGet (dictSet d k v) k' = if k' = k then some v else dictGet d k' := by
  unfold dictSet
  rw [dictGet_alGet, dictGet_alGet]
  by_cases h : d.any (fun p => p.1 = k)
  · rw [if_pos h]
    have hmap := alGet_mapAt d k (fun _ => v) k'
    simp only at hmap
    rw [hmap]
    by_cases hk : k' = k
    · have hsome : (alGet d k).isSome = true := by
        rw [alGet_isSome_any]; exact h
      obtain ⟨w, hw⟩ := Option.isSome_iff_exists.mp hsome
      simp [hk, hw]
    · simp [hk]
  · rw [if_neg h]
    have hnone : alGet d k = none := by
      have hs := alGet_isSome_any d k
      rw [Bool.not_eq_true] at h
      rw [h] at hs
      exact Option.not_isSome_iff_eq_none.mp (by rw [hs]; exact Bool.false_ne_true)
    exact alGet_append_single d k v k' hnone

theorem dictGet_dictUpdate (a b : List (String × JValue)) (k : String)
    (hnd : (b.map Prod.fst).Nodup) :
    dictGet (dictUpdate a b) k
      = match dictGet b k with
        | some v => some v
        | none => dictGet a k := by
  induction b generalizing a with
  | nil => rfl
  | cons kv rest ih =>
    rw [List.map_cons, List.nodup_cons] at hnd
    show dictGet (dictUpdate (dictSet a kv.1 kv.2) rest) k = _
    rw [ih _ hnd.2]
    by_cases hk : k = kv.1
    · have h1 : dictGet rest k = none :=
        alGet_eq_none_of_not_mem (by rw [hk]; exact hnd.1)
      have h2 : dictGet (kv :: rest) k = some kv.2 := by
        rw [dictGet_alGet, alGet_cons, if_pos hk.symm]
      simp only [h1, h2]
      rw [dictGet_dictSet, if_pos hk]
    · have h2 : dictGet (kv :: rest) k = dictGet rest k := by
        rw [dictGet_alGet, alGet_cons, if_neg (fun he => hk he.symm)]
        rfl
      rw [h2]
      cases hr : dictGet rest k with
      | none =>
        simp only [hr]
        rw [dictGet_dictSet, if_neg hk]
      | some v => simp only [hr]

theorem mergeValueAt_none (bv : Option JValue) : mergeValueAt bv none = bv := by
  cases bv with
  | none => rfl
  | some v => cases v <;> rfl

theorem dictGet_mergeStep_self (result : List (String × JValue))
    (kv : String × JValue) :
    dictGet (mergeStep result kv) kv.1
      = mergeValueAt (dictGet result kv.1) (some kv.2) := by
  obtain ⟨k, v⟩ := kv
  cases hr : dictGet result k with
  | none =>
    have happ := alGet_append_single result k v k hr
    cases v <;>
      · simp only [mergeStep, hr, mergeValueAt, dictGet_alGet]
        rw [happ, if_pos rfl]
  | some bv =>
    cases bv <;> cases v <;>
      simp [mergeStep, hr, mergeValueAt, dictGet_dictSet]

theorem dictGet_mergeStep_other (result : List (String × JValue))
    (kv : String × JValue) (k : String) (hk : k ≠ kv.1) :
    dictGet (mergeStep result kv) k = dictGet result k := by
  obtain ⟨k1, v⟩ := kv
  simp only at hk
  cases hr : dictGet result k1 with
  | none =>
    have happ := alGet_append_single result k1 v k hr
    cases v <;>
      · simp only [mergeStep, hr, dictGet_alGet]
        rw [happ, if_neg hk]
  | some bv =>
    cases bv <;> cases v <;>
      simp [mergeStep, hr, dictGet_dictSet, hk]

theorem dictGet_merge_configs (base overlay : List (String × JValue))
    (k : String) (hnd : (overlay.map Prod.fst).Nodup) :
    dictGet (merge_configs base overlay) k
      = mergeValueAt (dictGet base k) (dictGet overlay k) := by
  induction overlay generalizing base with
  | nil =>
    show dictGet base k = _
    rw [show dictGet ([] : List (String × JValue)) k = none from rfl,
      mergeValueAt_none]
  | cons kv rest ih =>
    rw [List.map_cons, List.nodup_cons] at hnd
    show dictGet ((kv :: rest).foldl mergeStep base) k = _
    rw [List.foldl_cons]
    have hfold : rest.foldl mergeStep (mergeStep base kv)
        = merge_configs (mergeStep base kv) rest := rfl
    rw [hfold, ih _ hnd.2]
    by_cases hk : k = kv.1
    · have h1 : dictGet rest k = none :=
        alGet_eq_none_of_not_mem (by rw [hk]; exact hnd.1)
      have h2 : dictGet (kv :: rest) k = some kv.2 := by
        rw [dictGet_alGet, alGet_cons, if_pos hk.symm]
      rw [h1, h2, mergeValueAt_none]
      rw [show dictGet (mergeStep base kv) k
            = dictGet (mergeStep base kv) kv.1 from by rw [hk]]
      rw [dictGet_mergeStep_self]
      rw [show dictGet base kv.1 = dictGet base k from by rw [hk]]
    · have h2 : dictGet (kv :: rest) k = dictGet rest k := by
        rw [dictGet_alGet, alGet_cons, if_neg (fun he => hk he.symm)]
        rfl
      rw [h2, dictGet_mergeStep_other _ _ _ hk]

/-- Claim C3, counterexample: merge_configs does NOT merge object-valued keys
recursively.  On a base and overlay whose "agents" objects both hold an object
under "x", the code's one-level dict union replaces the nested "x" object
wholesale, while the recursive merge the claim describes (specDeepMergeObj)
unions the two nested objects; the results differ. -/
theorem merge_configs_not_recursive :
    merge_configs cexBase cexOverlay ≠ specDeepMergeObj cexBase cexOverlay := by
  intro h
  have h1 : cexProj (merge_configs cexBase cexOverlay) = ["extra"] := by decide
  rw [h] at h1
  have h2 : cexProj (specDeepMergeObj cexBase cexOverlay) = ["cmd", "extra"] := by
    decide
  rw [h2] at h1
  exact absurd h1 (by decide)

/-- Claim C3 (amended): for every pair of configuration documents (overlay
keys distinct, as json.load guarantees), merge_configs merges the overlay on
top of the base such that object-valued keys merge by a one-level dict union
in which overlay entries replace same-key base entries wholesale (no deeper
merge), sequence-valued keys concatenate base-first, and scalar-valued keys
are replaced by the overlay; the two concrete examples of the claim hold. -/
theorem merge_configs_overlay_merge :
    (∀ base overlay k, (overlay.map Prod.fst).Nodup →
        dictGet (merge_configs base overlay) k
          = mergeValueAt (dictGet base k) (dictGet overlay k))
    ∧ (∀ a b k, (b.map Prod.fst).Nodup →
        dictGet (dictUpdate a b) k
          = match dictGet b k with
            | some v => some v
            | none => dictGet a k)
    ∧ merge_configs [("mounts", JValue.arr [JValue.str "A"])]
        [("mounts", JValue.arr [JValue.str "B"])]
        = [("mounts", JValue.arr [JValue.str "A", JValue.str "B"])]
    ∧ merge_configs [("agents", JValue.obj [("x", JValue.obj [])])]
        [("agents", JValue.obj [("y", JValue.obj [])])]
        = [("agents", JValue.obj [("x", JValue.obj []), ("y", JValue.obj [])])] := by
  exact ⟨fun base overlay k hnd => dictGet_merge_configs base overlay k hnd,
    fun a b k hnd => dictGet_dictUpdate a b k hnd, rfl, rfl⟩

/-- Witness for the amended claim C3: overlay scalar replaces base scalar at
a concrete key. -/
theorem merge_configs_overlay_merge_witness :
    dictGet (merge_configs [("image", JValue.str "a")]
      [("image", JValue.str "b")]) "image" = some (JValue.str "b") := by
  have h := merge_configs_overlay_merge.1 [("image", JValue.str "a")]
    [("image", JValue.str "b")] "image" (by decide)
  exact h.trans rfl

/-! ### inside_mode reconciliation (claims C1 and C2) -/

/-- Claim C1: for every session whose workspace is dirty at session end (git
status exits 0 with nonblank output), the reconciliation step of inside_mode
stages everything and creates exactly one commit, the final branch tip is the
fresh commit — which differs from the starting committish, since a newly
created commit is a new object — and neither the worktree nor the branch is
deleted (the trace contains no removal command and both presence flags are
unchanged). -/
theorem inside_mode_dirty_keeps_work (agent slug committish wtPath : String)
    (w : GitWorld) (hrc : w.statusRc = 0) (hdirty : pyStrip w.statusOut ≠ "")
    (hfresh : w.freshCommit ≠ committish) :
    (inside_mode_reconcile agent slug committish wtPath w).2
      = [GCmd.status, GCmd.addAll, GCmd.commit (autoCommitMsg agent slug),
         GCmd.revParse slug]
    ∧ (inside_mode_reconcile agent slug committish wtPath w).2.countP
        isCommitCmd = 1
    ∧ (inside_mode_reconcile agent slug committish wtPath w).1.tip
        = some w.freshCommit
    ∧ (inside_mode_reconcile agent slug committish wtPath w).1.tip
        ≠ some committish
    ∧ (inside_mode_reconcile agent slug committish wtPath w).1.worktreePresent
        = w.worktreePresent
    ∧ (inside_mode_reconcile agent slug committish wtPath w).1.branchPresent
        = w.branchPresent := by
  have hbne : (pyStrip w.statusOut != "") = true := bne_iff_ne.mpr hdirty
  simp [inside_mode_reconcile, runGit, hrc, hdirty, hbne, hfresh,
    List.countP_cons, isCommitCmd]

/-- Witness for claim C1 at a concrete dirty world. -/
theorem inside_mode_dirty_keeps_work_witness :
    (inside_mode_reconcile "claude" "brave-otter" "abc123"
        "/home/agent/work-brave-otter"
        ⟨0, " M file.txt\n", false, some "abc123", "def456", true, true⟩).1.tip
      = some "def456"
    ∧ (inside_mode_reconcile "claude" "brave-otter" "abc123"
        "/home/agent/work-brave-otter"
        ⟨0, " M file.txt\n", false, some "abc123", "def456", true,
          true⟩).1.branchPresent = true := by
  have h := inside_mode_dirty_keeps_work "claude" "brave-otter" "abc123"
    "/home/agent/work-brave-otter"
    ⟨0, " M file.txt\n", false, some "abc123", "def456", true, true⟩
    rfl (by decide) (by decide)
  exact ⟨h.2.2.1, h.2.2.2.2.2⟩

/-- Claim C2: at teardown, inside_mode deletes the worktree and the
slug-named branch if and only if the branch tip resolved at the check equals
the original committish; when the workspace is clean at exit and the branch
tip still equals the committish (no commits were made), cleanup occurs; and
when the tip cannot be resolved at the check (rev-parse fails), nothing is
deleted. -/
theorem inside_mode_cleanup_iff (agent slug committish wtPath : String)
    (w : GitWorld) :
    ((GCmd.worktreeRemove wtPath
        ∈ (inside_mode_reconcile agent slug committish wtPath w).2
      ∧ GCmd.branchDelete slug
        ∈ (inside_mode_reconcile agent slug committish wtPath w).2)
      ↔ tipAtCheck w = some committish)
    ∧ (tipAtCheck w = some committish →
        (inside_mode_reconcile agent slug committish wtPath w).1.worktreePresent
          = false
        ∧ (inside_mode_reconcile agent slug committish wtPath w).1.branchPresent
          = false)
    ∧ (w.statusRc = 0 → pyStrip w.statusOut = "" → w.tip = some committish →
        (inside_mode_reconcile agent slug committish wtPath w).1.worktreePresent
          = false
        ∧ (inside_mode_reconcile agent slug committish wtPath w).1.branchPresent
          = false)
    ∧ (tipAtCheck w ≠ some committish →
        (inside_mode_reconcile agent slug committish wtPath w).1.worktreePresent
          = w.worktreePresent
        ∧ (inside_mode_reconcile agent slug committish wtPath w).1.branchPresent
          = w.branchPresent
        ∧ GCmd.worktreeRemove wtPath
            ∉ (inside_mode_reconcile agent slug committish wtPath w).2
        ∧ GCmd.branchDelete slug
            ∉ (inside_mode_reconcile agent slug committish wtPath w).2)
    ∧ (tipAtCheck w = none →
        (inside_mode_reconcile agent slug committish wtPath w).1.worktreePresent
          = w.worktreePresent
        ∧ (inside_mode_reconcile agent slug committish wtPath w).1.branchPresent
          = w.branchPresent) := by
  by_cases hd : w.statusRc = 0 ∧ pyStrip w.statusOut ≠ ""
  · have hbne : (pyStrip w.statusOut != "") = true := bne_iff_ne.mpr hd.2
    have htac : tipAtCheck w = some w.freshCommit := by
      simp [tipAtCheck, hd]
    by_cases hf : w.freshCommit = committish
    · simp [inside_mode_reconcile, runGit, hd, hbne, htac, hf, hd.2]
    · simp [inside_mode_reconcile, runGit, hd, hbne, htac, hf, hd.2]
  · have htac : tipAtCheck w = w.tip := by
      simp [tipAtCheck, hd]
    cases ht : w.tip with
    | none =>
      simp [inside_mode_reconcile, runGit, hd, htac, ht]
    | some t =>
      by_cases htc : t = committish
      · have hclean : pyStrip w.statusOut ≠ "" → ¬ w.statusRc = 0 := by
          intro hne hrc
          exact hd ⟨hrc, hne⟩
        simp [inside_mode_reconcile, runGit, hd, htac, ht, htc]
      · simp [inside_mode_reconcile, runGit, hd, htac, ht, htc]

/-- Witness for claim C2 at a concrete clean world whose tip still equals the
committish: cleanup fires. -/
theorem inside_mode_cleanup_iff_witness :
    (inside_mode_reconcile "claude" "brave-otter" "abc123"
        "/home/agent/work-brave-otter"
        ⟨0, "", false, some "abc123", "def456", true, true⟩).1.worktreePresent
      = false
    ∧ (inside_mode_reconcile "claude" "brave-otter" "abc123"
        "/home/agent/work-brave-otter"
        ⟨0, "", false, some "abc123", "def456", true, true⟩).1.branchPresent
      = false := by
  have h := (inside_mode_cleanup_iff "claude" "brave-otter" "abc123"
    "/home/agent/work-brave-otter"
    ⟨0, "", false, some "abc123", "def456", true, true⟩).2.2.1
  exact h rfl (by decide) rfl

/-! ### Redirect gate (claim C7) -/

/-- Claim C7: on the one request the redirect handler serves, a missing
naming suffix yields an immediate 500; otherwise the handler polls the
resolver across the 20-second window at 0.5-second intervals (40 attempts in
half-second ticks): if some attempt within the window resolves, the response
is a 302 carrying a Location header for the resolved endpoint, and if none
does, the response is a 504 whose body names the unresolved hostname and the
timeout. -/
theorem redirect_gate_behavior (slug sfx : String) (tsErr : Option String)
    (digOk : Nat → Bool) :
    (RedirectHandler_do_GET slug none tsErr digOk).status = 500
    ∧ ((∃ i, i < 40 ∧ digOk i = true) →
        (RedirectHandler_do_GET slug (some sfx) tsErr digOk).status = 302
        ∧ ("Location", "http://" ++ (slug ++ "." ++ sfx) ++ ":8001/")
            ∈ (RedirectHandler_do_GET slug (some sfx) tsErr digOk).headers)
    ∧ ((∀ i, i < 40 → digOk i = false) →
        (RedirectHandler_do_GET slug (some sfx) tsErr digOk).status = 504
        ∧ (RedirectHandler_do_GET slug (some sfx) tsErr digOk).body
            = "<html><body><h1>Timeout</h1><p>Could not resolve " ++
              (slug ++ "." ++ sfx) ++ " after " ++ toString 20 ++
              " seconds</p></body></html>") := by
  refine ⟨rfl, ?_, ?_⟩
  · rintro ⟨i, hi, hok⟩
    have hsome : ((List.range (20 * 2)).find? digOk).isSome := by
      rw [List.find?_isSome]
      exact ⟨i, by simpa using hi, hok⟩
    obtain ⟨j, hj⟩ := Option.isSome_iff_exists.mp hsome
    simp [RedirectHandler_do_GET, hj]
  · intro hnone
    have hfind : (List.range (20 * 2)).find? digOk = none := by
      rw [List.find?_eq_none]
      intro a ha
      have := hnone a (by simpa using ha)
      simp [this]
    simp [RedirectHandler_do_GET, hfind]

/-- Witness for claim C7: with a suffix present and the third dig attempt
succeeding, the handler answers 302. -/
theorem redirect_gate_behavior_witness :
    (RedirectHandler_do_GET "brave-otter" (some "ts.net") none
        (fun i => i == 3)).status = 302 := by
  have h := (redirect_gate_behavior "brave-otter" "ts.net" none
    (fun i => i == 3)).2.1 ⟨3, by decide, by decide⟩
  exact h.1

/-! ### Slug allocation (claim C8) -/

theorem slugLoop_exhausted (draw : Nat → String × String)
    (query : String → Nat × String) (fuel i : Nat)
    (h : ∀ j, i ≤ j → j < i + fuel → ¬ slugAvailable query (slugOf draw j)) :
    slugLoop draw query i fuel = Except.error allocationExhaustedMsg := by
  induction fuel generalizing i with
  | zero => rfl
  | succ fuel ih =>
    have hi := h i (Nat.le_refl i) (by omega)
    simp only [slugAvailable, slugOf] at hi
    simp only [slugLoop]
    rw [if_neg hi]
    exact ih (i + 1) (fun j h1 h2 => h j (by omega) (by omega))

theorem slugLoop_first_success (draw : Nat → String × String)
    (query : String → Nat × String) (fuel i n : Nat) (hin : i ≤ n)
    (hn : n < i + fuel)
    (hprev : ∀ j, i ≤ j → j < n → ¬ slugAvailable query (slugOf draw j))
    (havail : slugAvailable query (slugOf draw n)) :
    slugLoop draw query i fuel = Except.ok (slugOf draw n) := by
  induction fuel generalizing i with
  | zero => omega
  | succ fuel ih =>
    by_cases hi : i = n
    · subst hi
      have ha := havail
      simp only [slugAvailable, slugOf] at ha
      simp only [slugLoop]
      rw [if_pos ha]
      rfl
    · have hna := hprev i (Nat.le_refl i) (by omega)
      simp only [slugAvailable, slugOf] at hna
      simp only [slugLoop]
      rw [if_neg hna]
      exact ih (i + 1) (by omega) (by omega)
        (fun j h1 h2 => hprev j (by omega) h2)

/-- Claim C8: generate_random_slug redraws past unavailable candidates (an
exact-name collision in the registry lines, or a failed registry query),
returns the first available candidate within the 100-attempt budget, fails
with the allocation-exhausted error when every attempt is unavailable, and on
an empty registry the very first draw is available and returned. -/
theorem generate_random_slug_spec (draw : Nat → String × String)
    (query : String → Nat × String) :
    ((∀ i, i < 100 → ¬ slugAvailable query (slugOf draw i)) →
        generate_random_slug draw query = Except.error allocationExhaustedMsg)
    ∧ (∀ n, n < 100 → (∀ i, i < n → ¬ slugAvailable query (slugOf draw i)) →
        slugAvailable query (slugOf draw n) →
        generate_random_slug draw query = Except.ok (slugOf draw n))
    ∧ (slugAvailable (queryOfRegistry []) (slugOf draw 0)
        ∧ generate_random_slug draw (queryOfRegistry [])
            = Except.ok (slugOf draw 0)) := by
  have hempty : ∀ c : String, queryOfRegistry [] c = (0, "") := by
    intro c
    simp [queryOfRegistry, String.intercalate]
  have hav0 : slugAvailable (queryOfRegistry []) (slugOf draw 0) := by
    rw [slugAvailable, hempty]
    refine ⟨rfl, ?_⟩
    have hne : slugOf draw 0 ≠ "" := by
      intro he
      have hlen := congrArg String.length he
      rw [slugOf] at hlen
      rw [String.length_append, String.length_append] at hlen
      have h2 : String.length "" = 0 := rfl
      have h3 : String.length "-" = 1 := rfl
      omega
    have hsplit : pySplitNl (pyStrip "") = [""] := by decide
    rw [hsplit]
    simp [hne]
  refine ⟨?_, ?_, hav0, ?_⟩
  · intro h
    exact slugLoop_exhausted draw query 100 0
      (fun j h1 h2 => h j (by omega))
  · intro n hn hprev havail
    exact slugLoop_first_success draw query 100 0 n (Nat.zero_le n)
      (by omega) (fun j h1 h2 => hprev j h2) havail
  · exact slugLoop_first_success draw (queryOfRegistry []) 100 0 0
      (Nat.le_refl 0) (by omega) (fun j h1 h2 => by omega) hav0

/-- Witness for claim C8: on an empty registry with a fixed draw stream the
allocator returns the first candidate. -/
theorem generate_random_slug_spec_witness :
    generate_random_slug (fun _ => ("brave", "otter")) (queryOfRegistry [])
      = Except.ok "brave-otter" := by
  have h := (generate_random_slug_spec (fun _ => ("brave", "otter"))
    (queryOfRegistry [])).2.2.2
  exact h.trans (by rfl)

/-! ### State-table lemmas (claims C4, C5, C6, C9, C10) -/

theorem lookupState_alGet (t : StateTable) (id : String) :
    lookupState t id = alGet t id := rfl

theorem alGet_isSome_iff_mem {β : Type} (t : List (String × β)) (id : String) :
    (alGet t id).isSome = true ↔ id ∈ t.map Prod.fst := by
  rw [alGet_isSome_any, List.any_eq_true]
  constructor
  · rintro ⟨p, hp, he⟩
    simp only [decide_eq_true_eq] at he
    exact List.mem_map.mpr ⟨p, hp, he⟩
  · intro h
    obtain ⟨p, hp, he⟩ := List.mem_map.mp h
    exact ⟨p, hp, by simpa using he⟩

theorem lookupState_upsert (fp capture : String → String)
    (port : String → Option Nat) (now : Nat) (t : StateTable)
    (c : String × String) (id : String) :
    lookupState (upsertState fp capture port now t c) id
      = if id = c.1 then
          some (match lookupState t c.1 with
                | some s => refreshState fp capture port now c.1 c.2 s
                | none => freshState fp capture port now c.1 c.2)
        else lookupState t id := by
  rw [lookupState_alGet, lookupState_alGet, lookupState_alGet]
  unfold upsertState
  by_cases h : t.any (fun p => p.1 = c.1)
  · rw [if_pos h]
    have hmap := alGet_mapAt t c.1
      (refreshState fp capture port now c.1 c.2) id
    rw [hmap]
    by_cases hk : id = c.1
    · have hsome : (alGet t c.1).isSome := by
        rw [alGet_isSome_any]; exact h
      obtain ⟨s, hs⟩ := Option.isSome_iff_exists.mp hsome
      simp [hk, hs]
    · simp [hk]
  · rw [if_neg h]
    have hnone : alGet t c.1 = none := by
      have hs := alGet_isSome_any t c.1
      rw [Bool.not_eq_true] at h
      rw [h] at hs
      exact Option.not_isSome_iff_eq_none.mp (by rw [hs]; exact Bool.false_ne_true)
    rw [alGet_append_single t c.1 _ id hnone]
    simp [hnone]

theorem lookupState_foldl_of_not_mem (fp capture : String → String)
    (port : String → Option Nat) (now : Nat)
    (cs : List (String × String)) (t : StateTable) (id : String)
    (hid : id ∉ cs.map Prod.fst) :
    lookupState (cs.foldl (upsertState fp capture port now) t) id
      = lookupState t id := by
  induction cs generalizing t with
  | nil => rfl
  | cons c rest ih =>
    rw [List.map_cons, List.mem_cons] at hid
    push_neg at hid
    rw [List.foldl_cons, ih _ hid.2, lookupState_upsert, if_neg hid.1]

theorem lookupState_foldl_of_mem (fp capture : String → String)
    (port : String → Option Nat) (now : Nat)
    (cs : List (String × String)) (t : StateTable) (id name : String)
    (hnd : (cs.map Prod.fst).Nodup) (hmem : (id, name) ∈ cs) :
    lookupState (cs.foldl (upsertState fp capture port now) t) id
      = some (match lookupState t id with
              | some s => refreshState fp capture port now id name s
              | none => freshState fp capture port now id name) := by
  induction cs generalizing t with
  | nil => exact absurd hmem (List.not_mem_nil _)
  | cons c rest ih =>
    rw [List.map_cons, List.nodup_cons] at hnd
    rw [List.foldl_cons]
    rcases List.mem_cons.mp hmem with hc | hrest
    · obtain rfl : c = (id, name) := hc.symm
      have hnotin : id ∉ rest.map Prod.fst := hnd.1
      rw [lookupState_foldl_of_not_mem fp capture port now rest _ id hnotin,
        lookupState_upsert, if_pos rfl]
    · have hne : id ≠ c.1 := by
        intro he
        apply hnd.1
        rw [← he]
        exact List.mem_map.mpr ⟨(id, name), hrest, rfl⟩
      have hup : lookupState (upsertState fp capture port now t c) id
          = lookupState t id := by
        rw [lookupState_upsert, if_neg hne]
      rw [ih _ hnd.2 hrest, hup]

theorem alGet_filter_key {β : Type} (t : List (String × β)) (q : String → Bool)
    (id : String) :
    alGet (t.filter fun p => q p.1) id
      = if q id then alGet t id else none := by
  induction t with
  | nil => cases hq : q id <;> simp [alGet, hq]
  | cons a t ih =>
    by_cases hai : a.1 = id
    · by_cases hq : q id
      · rw [List.filter_cons, if_pos (by rw [hai]; exact hq), alGet_cons,
          if_pos hai, alGet_cons, if_pos hai, if_pos hq]
      · rw [List.filter_cons, if_neg (by rw [hai]; simpa using hq), ih]
        simp [hq]
    · by_cases hqa : q a.1
      · rw [List.filter_cons, if_pos (by simpa using hqa), alGet_cons,
          if_neg hai, ih, alGet_cons, if_neg hai]
      · rw [List.filter_cons, if_neg (by simpa using hqa), ih, alGet_cons,
          if_neg hai]

theorem lookupState_update_of_mem (fp capture : String → String)
    (port : String → Option Nat) (now : Nat)
    (containers : List (String × String)) (t : StateTable) (id name : String)
    (hnd : (containers.map Prod.fst).Nodup) (hmem : (id, name) ∈ containers) :
    lookupState (update_container_states fp capture port now containers t) id
      = some (match lookupState t id with
              | some s => refreshState fp capture port now id name s
              | none => freshState fp capture port now id name) := by
  unfold update_container_states
  rw [lookupState_alGet,
    alGet_filter_key _ (fun k => containers.any fun c => c.1 = k) id]
  have hq : (containers.any fun c => c.1 = id) = true := by
    simp only [List.any_eq_true, decide_eq_true_eq]
    exact ⟨(id, name), hmem, rfl⟩
  rw [if_pos hq, ← lookupState_alGet]
  exact lookupState_foldl_of_mem fp capture port now containers t id name hnd
    hmem

theorem lookupState_update_of_not_mem (fp capture : String → String)
    (port : String → Option Nat) (now : Nat)
    (containers : List (String × String)) (t : StateTable) (id : String)
    (hid : id ∉ containers.map Prod.fst) :
    lookupState (update_container_states fp capture port now containers t) id
      = none := by
  unfold update_container_states
  rw [lookupState_alGet,
    alGet_filter_key _ (fun k => containers.any fun c => c.1 = k) id]
  have hq : (containers.any fun c => c.1 = id) = false := by
    simp only [List.any_eq_false, decide_eq_true_eq]
    intro c hc he
    exact hid (List.mem_map.mpr ⟨c, hc, he⟩)
  rw [hq]
  simp

theorem mem_keys_upsert (fp capture : String → String)
    (port : String → Option Nat) (now : Nat) (t : StateTable)
    (c : String × String) (id : String) :
    id ∈ (upsertState fp capture port now t c).map Prod.fst
      ↔ id ∈ t.map Prod.fst ∨ id = c.1 := by
  unfold upsertState
  by_cases h : t.any (fun p => p.1 = c.1)
  · rw [if_pos h]
    have hkeys : (t.map fun p =>
        if p.1 = c.1 then (p.1, refreshState fp capture port now c.1 c.2 p.2)
        else p).map Prod.fst = t.map Prod.fst := by
      rw [List.map_map]
      apply List.map_congr_left
      intro p hp
      by_cases hp1 : p.1 = c.1 <;> simp [hp1]
    rw [hkeys]
    have hc : c.1 ∈ t.map Prod.fst := by
      rw [← alGet_isSome_iff_mem, alGet_isSome_any]
      exact h
    constructor
    · exact Or.inl
    · rintro (h1 | rfl)
      · exact h1
      · exact hc
  · rw [if_neg h, List.map_append]
    simp

theorem mem_keys_foldl (fp capture : String → String)
    (port : String → Option Nat) (now : Nat) (cs : List (String × String))
    (t : StateTable) (id : String) :
    id ∈ (cs.foldl (upsertState fp capture port now) t).map Prod.fst
      ↔ id ∈ t.map Prod.fst ∨ id ∈ cs.map Prod.fst := by
  induction cs generalizing t with
  | nil => simp
  | cons c rest ih =>
    rw [List.foldl_cons, ih, mem_keys_upsert, List.map_cons, List.mem_cons]
    tauto

theorem mem_keys_update (fp capture : String → String)
    (port : String → Option Nat) (now : Nat)
    (containers : List (String × String)) (t : StateTable) (id : String) :
    id ∈ (update_container_states fp capture port now containers t).map
          Prod.fst
      ↔ id ∈ containers.map Prod.fst := by
  constructor
  · intro h
    obtain ⟨p, hp, he⟩ := List.mem_map.mp h
    rw [update_container_states] at hp
    have hq := (List.mem_filter.mp hp).2
    simp only [List.any_eq_true, decide_eq_true_eq] at hq
    obtain ⟨c, hc, hce⟩ := hq
    exact List.mem_map.mpr ⟨c, hc, hce.trans he⟩
  · intro h
    have h1 : id ∈ (containers.foldl (upsertState fp capture port now)
        t).map Prod.fst :=
      (mem_keys_foldl fp capture port now containers t id).mpr (Or.inr h)
    obtain ⟨p, hp, he⟩ := List.mem_map.mp h1
    obtain ⟨c, hc, hce⟩ := List.mem_map.mp h
    apply List.mem_map.mpr
    refine ⟨p, ?_, he⟩
    rw [update_container_states]
    apply List.mem_filter.mpr
    refine ⟨hp, ?_⟩
    simp only [List.any_eq_true, decide_eq_true_eq]
    exact ⟨c, hc, hce.trans he.symm⟩

theorem refreshState_fields (fp capture : String → String)
    (port : String → Option Nat) (now : Nat) (id name : String)
    (s : ContainerState) :
    (refreshState fp capture port now id name s).container_id = s.container_id
    ∧ (refreshState fp capture port now id name s).name = name
    ∧ (refreshState fp capture port now id name s).yatty_port = port id
    ∧ (refreshState fp capture port now id name s).content_hash
        = fp (capture id) := by
  by_cases h : s.content_hash = fp (capture id) <;> simp [refreshState, h]

theorem refreshState_changed (fp capture : String → String)
    (port : String → Option Nat) (now : Nat) (id name : String)
    (s : ContainerState) (h : s.content_hash ≠ fp (capture id)) :
    (refreshState fp capture port now id name s).pane_content = capture id
    ∧ (refreshState fp capture port now id name s).content_hash
        = fp (capture id)
    ∧ (refreshState fp capture port now id name s).last_change_time = now := by
  simp [refreshState, h]

theorem refreshState_unchanged (fp capture : String → String)
    (port : String → Option Nat) (now : Nat) (id name : String)
    (s : ContainerState) (h : s.content_hash = fp (capture id)) :
    (refreshState fp capture port now id name s).pane_content = s.pane_content
    ∧ (refreshState fp capture port now id name s).content_hash
        = s.content_hash
    ∧ (refreshState fp capture port now id name s).last_change_time
        = s.last_change_time := by
  simp [refreshState, h]

theorem refreshState_noop (fp capture : String → String)
    (port : String → Option Nat) (now : Nat) (id name : String)
    (s : ContainerState) (h1 : s.name = name) (h2 : s.yatty_port = port id)
    (h3 : s.content_hash = fp (capture id)) :
    refreshState fp capture port now id name s = s := by
  obtain ⟨cid, nm, pc, ch, lc, yp⟩ := s
  simp only at h1 h2 h3
  simp [refreshState, h1, h2, h3]

theorem tableWF_update (fp capture : String → String)
    (port : String → Option Nat) (now : Nat)
    (containers : List (String × String)) (t : StateTable)
    (hwf : TableWF fp t) :
    TableWF fp (update_container_states fp capture port now containers t) := by
  have hup : ∀ (t' : StateTable) (c : String × String), TableWF fp t' →
      TableWF fp (upsertState fp capture port now t' c) := by
    intro t' c hwf' p hp
    unfold upsertState at hp
    by_cases h : t'.any (fun q => q.1 = c.1)
    · rw [if_pos h] at hp
      obtain ⟨q, hq, he⟩ := List.mem_map.mp hp
      by_cases hqc : q.1 = c.1
      · rw [if_pos hqc] at he
        rw [← he]
        show (refreshState fp capture port now c.1 c.2 q.2).content_hash
            = fp (refreshState fp capture port now c.1 c.2 q.2).pane_content
        by_cases hh : q.2.content_hash = fp (capture c.1)
        · have h1 := refreshState_unchanged fp capture port now c.1 c.2 q.2 hh
          rw [h1.2.1, h1.1]
          exact hwf' q hq
        · have h1 := refreshState_changed fp capture port now c.1 c.2 q.2 hh
          rw [h1.2.1, h1.1]
      · rw [if_neg hqc] at he
        rw [← he]
        exact hwf' q hq
    · rw [if_neg h] at hp
      rcases List.mem_append.mp hp with hin | hone
      · exact hwf' p hin
      · obtain rfl : p = (c.1, freshState fp capture port now c.1 c.2) := by
          simpa using hone
        rfl
  have hfold : ∀ (cs : List (String × String)) (t' : StateTable),
      TableWF fp t' →
      TableWF fp (cs.foldl (upsertState fp capture port now) t') := by
    intro cs
    induction cs with
    | nil => intro t' h; exact h
    | cons c rest ih =>
      intro t' h
      rw [List.foldl_cons]
      exact ih _ (hup t' c h)
  intro p hp
  rw [update_container_states] at hp
  exact hfold containers t hwf p (List.mem_filter.mp hp).1

theorem wellKeyed_update (fp capture : String → String)
    (port : String → Option Nat) (now : Nat)
    (containers : List (String × String)) (t : StateTable)
    (hwk : WellKeyed t) :
    WellKeyed (update_container_states fp capture port now containers t) := by
  have hup : ∀ (t' : StateTable) (c : String × String), WellKeyed t' →
      WellKeyed (upsertState fp capture port now t' c) := by
    intro t' c hwk' p hp
    unfold upsertState at hp
    by_cases h : t'.any (fun q => q.1 = c.1)
    · rw [if_pos h] at hp
      obtain ⟨q, hq, he⟩ := List.mem_map.mp hp
      by_cases hqc : q.1 = c.1
      · rw [if_pos hqc] at he
        rw [← he]
        have hcid : (refreshState fp capture port now c.1 c.2
            q.2).container_id = q.2.container_id :=
          (refreshState_fields fp capture port now c.1 c.2 q.2).1
        simpa [hcid] using hwk' q hq
      · rw [if_neg hqc] at he
        rw [← he]
        exact hwk' q hq
    · rw [if_neg h] at hp
      rcases List.mem_append.mp hp with hin | hone
      · exact hwk' p hin
      · obtain rfl : p = (c.1, freshState fp capture port now c.1 c.2) := by
          simpa using hone
        rfl
  have hfold : ∀ (cs : List (String × String)) (t' : StateTable),
      WellKeyed t' →
      WellKeyed (cs.foldl (upsertState fp capture port now) t') := by
    intro cs
    induction cs with
    | nil => intro t' h; exact h
    | cons c rest ih =>
      intro t' h
      rw [List.foldl_cons]
      exact ih _ (hup t' c h)
  intro p hp
  rw [update_container_states] at hp
  exact hfold containers t hwk p (List.mem_filter.mp hp).1

theorem lookupState_update_entry_fields (fp capture : String → String)
    (port : String → Option Nat) (now : Nat)
    (containers : List (String × String)) (t : StateTable) (id name : String)
    (hnd : (containers.map Prod.fst).Nodup) (hmem : (id, name) ∈ containers) :
    ∃ s1, lookupState (update_container_states fp capture port now containers
        t) id = some s1
      ∧ s1.name = name ∧ s1.yatty_port = port id
      ∧ s1.content_hash = fp (capture id) := by
  rw [lookupState_update_of_mem fp capture port now containers t id name hnd
    hmem]
  cases hl : lookupState t id with
  | none => exact ⟨_, rfl, rfl, rfl, rfl⟩
  | some s =>
    have hf := refreshState_fields fp capture port now id name s
    exact ⟨_, rfl, hf.2.1, hf.2.2.1, hf.2.2.2⟩

/-- Claim C4: per tracked container id, a poll cycle fingerprints the
captured snapshot and replaces content and timestamp only on a fingerprint
change.  Consequently a second poll that captures the same text leaves the
tracked entry — in particular its last-change timestamp — completely
unmodified, while a poll capturing genuinely different text (fingerprints
collision-free, the design assumption behind md5) replaces the stored content
and strictly advances the last-change timestamp to the strictly later
clock reading. -/
theorem poll_change_detection (fp capture capture2 : String → String)
    (port : String → Option Nat) (now1 now2 : Nat)
    (containers : List (String × String)) (t : StateTable) (id name : String)
    (hnd : (containers.map Prod.fst).Nodup) (hmem : (id, name) ∈ containers) :
    lookupState (update_container_states fp capture port now2 containers
        (update_container_states fp capture port now1 containers t)) id
      = lookupState (update_container_states fp capture port now1 containers
          t) id
    ∧ (∀ s1, Function.Injective fp →
        lookupState (update_container_states fp capture port now1 containers
            t) id = some s1 →
        TableWF fp t →
        capture2 id ≠ s1.pane_content → s1.last_change_time < now2 →
        ∃ s2, lookupState (update_container_states fp capture2 port now2
              containers (update_container_states fp capture port now1
                containers t)) id = some s2
          ∧ s2.pane_content = capture2 id
          ∧ s2.content_hash = fp (capture2 id)
          ∧ s2.last_change_time = now2
          ∧ s1.last_change_time < s2.last_change_time) := by
  constructor
  · obtain ⟨s1, hs1, hn, hp, hh⟩ := lookupState_update_entry_fields fp capture
      port now1 containers t id name hnd hmem
    have h2 := lookupState_update_of_mem fp capture port now2 containers
      (update_container_states fp capture port now1 containers t) id name hnd
      hmem
    rw [hs1] at h2
    have h2x : lookupState (update_container_states fp capture port now2
        containers (update_container_states fp capture port now1 containers
          t)) id = some (refreshState fp capture port now2 id name s1) := h2
    rw [h2x, refreshState_noop fp capture port now2 id name s1 hn hp hh]
    exact hs1.symm
  · intro s1 hinj hs1 hwf hne hlt
    have hwf1 : TableWF fp (update_container_states fp capture port now1
        containers t) := tableWF_update fp capture port now1 containers t hwf
    have hmem1 : (id, s1) ∈ update_container_states fp capture port now1
        containers t := by
      rw [lookupState_alGet] at hs1
      exact alGet_mem_of_eq_some hs1
    have hwfs1 : s1.content_hash = fp s1.pane_content := hwf1 _ hmem1
    have hchanged : s1.content_hash ≠ fp (capture2 id) := by
      rw [hwfs1]
      intro he
      exact hne (hinj he.symm)
    have h2 := lookupState_update_of_mem fp capture2 port now2 containers
      (update_container_states fp capture port now1 containers t) id name hnd
      hmem
    rw [hs1] at h2
    have hch := refreshState_changed fp capture2 port now2 id name s1 hchanged
    refine ⟨_, h2, hch.1, hch.2.1, hch.2.2, ?_⟩
    rw [hch.2.2]
    exact hlt

/-- Witness for claim C4 at a concrete one-container world: the second poll
with changed text installs the new content at the later time. -/
theorem poll_change_detection_witness :
    ∃ s2, lookupState (update_container_states (fun s => s) (fun _ => "b")
          (fun _ => none) 2 [("c1", "n1")]
          (update_container_states (fun s => s) (fun _ => "a")
            (fun _ => none) 1 [("c1", "n1")] [])) "c1" = some s2
      ∧ s2.pane_content = "b"
      ∧ s2.content_hash = (fun s => s) "b"
      ∧ s2.last_change_time = 2
      ∧ (⟨"c1", "n1", "a", "a", 1, none⟩ :
          ContainerState).last_change_time < s2.last_change_time := by
  have h := (poll_change_detection (fun s => s) (fun _ => "a") (fun _ => "b")
    (fun _ => none) 1 2 [("c1", "n1")] [] "c1" "n1" (by decide) (by decide)).2
    ⟨"c1", "n1", "a", "a", 1, none⟩ (fun a b hab => hab) (by decide)
    (fun p hp => absurd hp (List.not_mem_nil p)) (by decide) (by decide)
  exact h

/-- Claim C5: across poll cycles, a tracked entry's fingerprint changes if
and only if its stored snapshot text changes, its last-change timestamp is
monotonically non-decreasing (the clock never reads earlier than a stored
timestamp), and it advances only on a fingerprint change.  Fingerprint
coherence of the table is preserved, so the statement composes over any
sequence of poll cycles. -/
theorem containerstate_invariants (fp capture : String → String)
    (port : String → Option Nat) (now : Nat)
    (containers : List (String × String)) (t : StateTable)
    (hwf : TableWF fp t) (hnd : (containers.map Prod.fst).Nodup)
    (hnow : ∀ p ∈ t, p.2.last_change_time ≤ now) :
    TableWF fp (update_container_states fp capture port now containers t)
    ∧ (∀ id s s', lookupState t id = some s →
        lookupState (update_container_states fp capture port now containers
          t) id = some s' →
        ((s'.content_hash = s.content_hash
            ↔ s'.pane_content = s.pane_content)
         ∧ s.last_change_time ≤ s'.last_change_time
         ∧ (s'.content_hash = s.content_hash →
             s'.last_change_time = s.last_change_time))) := by
  refine ⟨tableWF_update fp capture port now containers t hwf, ?_⟩
  intro id s s' hs hs'
  have hsome : (lookupState (update_container_states fp capture port now
      containers t) id).isSome := by
    rw [hs']
    rfl
  rw [lookupState_alGet, alGet_isSome_iff_mem] at hsome
  have hidmem := (mem_keys_update fp capture port now containers t id).mp
    hsome
  obtain ⟨c, hc, hc1⟩ := List.mem_map.mp hidmem
  have hmem : (id, c.2) ∈ containers := by
    rw [← hc1]
    exact hc
  have hchar := lookupState_update_of_mem fp capture port now containers t id
    c.2 hnd hmem
  rw [hs, hs'] at hchar
  obtain rfl : s' = refreshState fp capture port now id c.2 s :=
    Option.some.inj hchar
  have hsmem : (id, s) ∈ t := by
    rw [lookupState_alGet] at hs
    exact alGet_mem_of_eq_some hs
  have hwfs : s.content_hash = fp s.pane_content := hwf _ hsmem
  have hnows : s.last_change_time ≤ now := hnow _ hsmem
  by_cases hh : s.content_hash = fp (capture id)
  · have h1 := refreshState_unchanged fp capture port now id c.2 s hh
    rw [h1.1, h1.2.1, h1.2.2]
    simp
  · have h1 := refreshState_changed fp capture port now id c.2 s hh
    refine ⟨⟨?_, ?_⟩, ?_, ?_⟩
    · intro hhe
      rw [h1.2.1] at hhe
      exact absurd hhe.symm hh
    · intro hce
      rw [h1.1] at hce
      rw [hce] at hh
      exact absurd hwfs hh
    · rw [h1.2.2]
      exact hnows
    · intro hhe
      rw [h1.2.1] at hhe
      exact absurd hhe.symm hh

/-- Witness for claim C5 at a concrete table whose one entry changes text:
the fingerprint and text change together and the timestamp advances. -/
theorem containerstate_invariants_witness :
    ((⟨"c1", "n1", "b", "b", 5, none⟩ : ContainerState).content_hash
        = (⟨"c1", "n1", "a", "a", 0, none⟩ : ContainerState).content_hash
      ↔ (⟨"c1", "n1", "b", "b", 5, none⟩ : ContainerState).pane_content
        = (⟨"c1", "n1", "a", "a", 0, none⟩ : ContainerState).pane_content)
    ∧ (⟨"c1", "n1", "a", "a", 0, none⟩ :
        ContainerState).last_change_time
      ≤ (⟨"c1", "n1", "b", "b", 5, none⟩ : ContainerState).last_change_time := by
  have h := (containerstate_invariants (fun s => s) (fun _ => "b")
    (fun _ => none) 5 [("c1", "n1")]
    [("c1", ⟨"c1", "n1", "a", "a", 0, none⟩)]
    (by
      intro p hp
      simp only [List.mem_singleton] at hp
      subst hp
      rfl)
    (by decide)
    (by
      intro p hp
      simp only [List.mem_singleton] at hp
      subst hp
      decide)).2 "c1" ⟨"c1", "n1", "a", "a", 0, none⟩
    ⟨"c1", "n1", "b", "b", 5, none⟩ (by decide) (by decide)
  exact ⟨h.1, h.2.1⟩

/-- Claim C9: a container id present in one poll's candidate list and absent
from the next poll's candidate list is dropped from the tracked table and
contributes no state to the rendered snapshot: it is not among the
recency-sorted states (from which both the HTML tiles and the JSON projection
are built) and not among the JSON entries. -/
theorem stale_container_dropped (fp1 fp2 capture1 capture2 : String → String)
    (port1 port2 : String → Option Nat) (now1 now2 : Nat)
    (c1 c2 : List (String × String)) (t : StateTable) (id : String)
    (hwk : WellKeyed t) (h1 : id ∈ c1.map Prod.fst)
    (h2 : id ∉ c2.map Prod.fst) :
    lookupState (update_container_states fp2 capture2 port2 now2 c2
        (update_container_states fp1 capture1 port1 now1 c1 t)) id = none
    ∧ (∀ s ∈ sortedStates (update_container_states fp2 capture2 port2 now2 c2
        (update_container_states fp1 capture1 port1 now1 c1 t)),
        s.container_id ≠ id)
    ∧ (∀ e ∈ apiData (update_container_states fp2 capture2 port2 now2 c2
        (update_container_states fp1 capture1 port1 now1 c1 t)),
        e.id ≠ id) := by
  have hwk2 : WellKeyed (update_container_states fp2 capture2 port2 now2 c2
      (update_container_states fp1 capture1 port1 now1 c1 t)) :=
    wellKeyed_update fp2 capture2 port2 now2 c2 _
      (wellKeyed_update fp1 capture1 port1 now1 c1 t hwk)
  have hstates : ∀ s ∈ sortedStates (update_container_states fp2 capture2
      port2 now2 c2 (update_container_states fp1 capture1 port1 now1 c1 t)),
      s.container_id ≠ id := by
    intro s hs he
    rw [sortedStates, List.mem_mergeSort] at hs
    obtain ⟨p, hp, hps⟩ := List.mem_map.mp hs
    have hkey : p.1 = id := by
      rw [← he, ← hps]
      exact (hwk2 p hp).symm
    have : id ∈ (update_container_states fp2 capture2 port2 now2 c2
        (update_container_states fp1 capture1 port1 now1 c1 t)).map
          Prod.fst := List.mem_map.mpr ⟨p, hp, hkey⟩
    exact h2 ((mem_keys_update fp2 capture2 port2 now2 c2 _ id).mp this)
  refine ⟨lookupState_update_of_not_mem fp2 capture2 port2 now2 c2 _ id h2,
    hstates, ?_⟩
  intro e he
  obtain ⟨s, hs, hse⟩ := List.mem_map.mp he
  rw [← hse]
  exact hstates s hs

/-- Witness for claim C9: a container seen in the first poll and gone in the
second is absent from the refreshed table. -/
theorem stale_container_dropped_witness :
    lookupState (update_container_states (fun s => s) (fun _ => "x")
        (fun _ => none) 2 []
        (update_container_states (fun s => s) (fun _ => "x")
          (fun _ => none) 1 [("a", "n")] [])) "a" = none := by
  have h := stale_container_dropped (fun s => s) (fun s => s)
    (fun _ => "x") (fun _ => "x") (fun _ => none) (fun _ => none) 1 2
    [("a", "n")] [] [] "a" (fun p hp => absurd hp (List.not_mem_nil p))
    (by decide) (by decide)
  exact h.1

/-- Claim C10: after any call to update_container_states, the key set of the
tracked table equals exactly the id set of the candidate list — every
candidate id is present and no other id survives. -/
theorem update_container_states_keys (fp capture : String → String)
    (port : String → Option Nat) (now : Nat)
    (containers : List (String × String)) (t : StateTable) (id : String) :
    id ∈ (update_container_states fp capture port now containers t).map
          Prod.fst
      ↔ id ∈ containers.map Prod.fst :=
  mem_keys_update fp capture port now containers t id

/-! ### Dashboard HTTP surface (claim C6) -/

theorem hasSubSeq_nil (l : List Char) : hasSubSeq [] l = true := by
  induction l with
  | nil => rfl
  | cons c rest ih => simp [hasSubSeq, List.isPrefixOf]

theorem isPrefixOf_append_extend (l m r : List Char)
    (h : l.isPrefixOf m = true) : l.isPrefixOf (m ++ r) = true := by
  induction l generalizing m with
  | nil => simp [List.isPrefixOf]
  | cons a as ih =>
    cases m with
    | nil => simp [List.isPrefixOf] at h
    | cons b bs =>
      rw [List.cons_append]
      simp only [List.isPrefixOf, Bool.and_eq_true] at h ⊢
      exact ⟨h.1, ih bs h.2⟩

theorem hasSubSeq_append_left (n a b : List Char)
    (h : hasSubSeq n a = true) : hasSubSeq n (a ++ b) = true := by
  induction a with
  | nil =>
    have hn : n = [] := by simpa [hasSubSeq, List.isEmpty_iff] using h
    rw [List.nil_append, hn]
    exact hasSubSeq_nil b
  | cons c rest ih =>
    rw [List.cons_append]
    simp only [hasSubSeq, Bool.or_eq_true] at h ⊢
    rcases h with hpre | hrest
    · left
      have := isPrefixOf_append_extend n (c :: rest) b hpre
      rwa [List.cons_append] at this
    · right
      exact ih hrest

theorem strContains_append_left (s t n : String)
    (h : strContains s n = true) : strContains (s ++ t) n = true := by
  have he : (s ++ t).toList = s.toList ++ t.toList := String.data_append s t
  rw [strContains, he]
  exact hasSubSeq_append_left _ _ _ h

set_option maxRecDepth 100000 in
theorem dashPagePre_has_refresh_tag :
    strContains dashPagePre refreshMetaTag = true := by decide

theorem generate_html_has_refresh_tag (magicSuffix : Option String)
    (now : Nat) (t : StateTable) :
    strContains (generate_html magicSuffix now t) refreshMetaTag = true := by
  rw [generate_html]
  exact strContains_append_left _ _ _
    (strContains_append_left _ _ _ dashPagePre_has_refresh_tag)

theorem sortedStates_sorted (t : StateTable) :
    List.Pairwise
      (fun a b : ContainerState =>
        b.last_change_time ≤ a.last_change_time)
      (sortedStates t) := by
  have h := @List.sorted_mergeSort ContainerState
    (fun a b : ContainerState =>
      Nat.ble b.last_change_time a.last_change_time)
    (fun a b c h1 h2 => by
      rw [Nat.ble_eq] at h1 h2 ⊢
      omega)
    (fun a b => by
      rw [Bool.or_eq_true, Nat.ble_eq, Nat.ble_eq]
      omega)
    (t.map Prod.snd)
  exact h.imp (fun hab => by rwa [Nat.ble_eq] at hab)

theorem apiData_sorted (t : StateTable) :
    List.Pairwise (fun a b : ApiEntry => b.lastChange ≤ a.lastChange)
      (apiData t) := by
  rw [apiData, List.pairwise_map]
  exact (sortedStates_sorted t).imp (fun hab => hab)

theorem apiData_content_le (t : StateTable) :
    ∀ e ∈ apiData t, e.content.length ≤ 500 := by
  intro e he
  obtain ⟨s, hs, rfl⟩ := List.mem_map.mp he
  show (s.pane_content.toList.take 500).length ≤ 500
  exact List.length_take_le 500 s.pane_content.toList

/-- Claim C6, counterexample: the claim's "any other path returns 404" fails
at the path /index.html, which the handler treats as an alias of / and
answers with the HTML page and status 200. -/
theorem dashboard_index_html_not_404 :
    (DashboardHandler_do_GET (fun s => s) (fun _ => "") (fun _ => none) 0
        none [] [] "/index.html").1.status = 200
    ∧ (DashboardHandler_do_GET (fun s => s) (fun _ => "") (fun _ => none) 0
        none [] [] "/index.html").1.status ≠ 404 := by
  exact ⟨by decide, by decide⟩

/-- Claim C6 (amended): GET / — and likewise GET /index.html, which the code
serves identically — returns status 200 with the full auto-refreshing HTML
page (it carries the dashboard's refresh meta tag) rendered from the freshly
polled table; GET /api/containers returns status 200 with the JSON array of
id/name/lastChange/exposed-port/content objects, content truncated to at
most 500 characters and the array ordered by last-change recency descending;
a GET to any path other than these three returns status 404 and leaves the
tracked table untouched. -/
theorem dashboard_http_surface (fp capture : String → String)
    (port : String → Option Nat) (now : Nat) (suffix : Option String)
    (containers : List (String × String)) (t : StateTable) :
    (∀ path, path = "/" ∨ path = "/index.html" →
        (DashboardHandler_do_GET fp capture port now suffix containers t
            path).1.status = 200
        ∧ (DashboardHandler_do_GET fp capture port now suffix containers t
            path).1.body
          = DashBody.page (generate_html suffix now
              (update_container_states fp capture port now containers t))
        ∧ strContains (generate_html suffix now
            (update_container_states fp capture port now containers t))
            refreshMetaTag = true)
    ∧ ((DashboardHandler_do_GET fp capture port now suffix containers t
          "/api/containers").1.status = 200
       ∧ (DashboardHandler_do_GET fp capture port now suffix containers t
            "/api/containers").1.body
          = DashBody.json (apiData
              (update_container_states fp capture port now containers t))
       ∧ (∀ e ∈ apiData (update_container_states fp capture port now
            containers t), e.content.length ≤ 500)
       ∧ List.Pairwise (fun a b : ApiEntry => b.lastChange ≤ a.lastChange)
           (apiData (update_container_states fp capture port now containers
             t)))
    ∧ (∀ path, path ≠ "/" → path ≠ "/index.html" →
        path ≠ "/api/containers" →
        (DashboardHandler_do_GET fp capture port now suffix containers t
            path).1.status = 404
        ∧ (DashboardHandler_do_GET fp capture port now suffix containers t
            path).2 = t) := by
  refine ⟨?_, ⟨?_, ?_, apiData_content_le _, apiData_sorted _⟩, ?_⟩
  · intro path hpath
    simp only [DashboardHandler_do_GET]
    rw [if_pos hpath]
    exact ⟨rfl, rfl, generate_html_has_refresh_tag suffix now _⟩
  · simp only [DashboardHandler_do_GET]
    rw [if_neg (by decide)]
    simp
  · simp only [DashboardHandler_do_GET]
    rw [if_neg (by decide)]
    simp
  · intro path h1 h2 h3
    simp only [DashboardHandler_do_GET]
    rw [if_neg (fun h => h.elim h1 h2), if_neg h3]
    exact ⟨rfl, rfl⟩

/-- Witness for the amended claim C6: an unserved path answers 404. -/
theorem dashboard_http_surface_witness :
    (DashboardHandler_do_GET (fun s => s) (fun _ => "") (fun _ => none) 0
        none [] [] "/nope").1.status = 404 := by
  have h := (dashboard_http_surface (fun s => s) (fun _ => "")
    (fun _ => none) 0 none [] []).2.2 "/nope" (by decide) (by decide)
    (by decide)
  exact h.1

end CtrAgent
